import Mathlib

/-!
Verification of the PII detection/redaction core of the Redact-PII backend.

The development shallowly embeds the relevant parts of the Python sources:

* `src/Backend/regex_redactor.py` — pattern table, per-category match
  validators, `find_pii_matches`, `redact_text`,
  `clean_overlapping_redactions`;
* `src/Backend/improved_pii_service.py` — `_combine_and_deduplicate_matches`,
  `_extract_llm_matches`, `_hybrid_redact` and its summary merge;
* `src/Backend/pii_validator.py` — the confidence-gated enhancement loop and
  the `possible_id` heuristic scan of `validate_text`;
* `src/Backend/models.py` — the `RedactRequest` field validators.

Text is modelled as `List Char`; Python regular expressions are modelled by a
small backtracking matcher (`RE`, `reRun`, `finditer`, `reSub`) with the Python
leftmost / greedy preference order, encoding character-for-character the
pattern literals of the source for the categories the claims exercise.
Python dicts are modelled as association lists with first-occurrence lookup
(`dget`/`dset`/`dmem`, faithful to unique-key dicts).  Confidence scores are
rationals.  The external LLM detector is an oracle parameter.
-/

/-! ## Basic string helpers (Python `str` operations) -/

/-- Python whitespace characters (`str.split` / `str.strip` default set,
ASCII range, which is all the embedded texts use). -/
def isPyWs (c : Char) : Bool :=
  c == ' ' || c == '\t' || c == '\n' || c == '\r' || c == '\x0b' || c == '\x0c'

/-- Python `str.lower()` (ASCII). -/
def pyLower (s : List Char) : List Char := s.map Char.toLower

/-- Python `str.upper()` (ASCII). -/
def pyUpper (s : List Char) : List Char := s.map Char.toUpper

/-- Python `str.upper()` on a `String`. -/
def pyUpperS (s : String) : String := String.mk (pyUpper s.toList)

/-- Python `str.strip()` with the default whitespace set. -/
def pyStrip (s : List Char) : List Char :=
  ((s.dropWhile isPyWs).reverse.dropWhile isPyWs).reverse

/-- Does `hay` start with `needle`? (helper for substring search). -/
def startsSeq : List Char → List Char → Bool
  | _, [] => true
  | [], _ :: _ => false
  | h :: hs, n :: ns => (h == n) && startsSeq hs ns

/-- Python `needle in hay` substring test. -/
def containsSeq : List Char → List Char → Bool
  | [], needle => needle.isEmpty
  | h :: hs, needle => startsSeq (h :: hs) needle || containsSeq hs needle

/-- Index-tracking scan used to implement Python `str.find`. -/
def findSubGo (needle : List Char) : List Char → Nat → Option Nat
  | [], i => if needle.isEmpty then some i else none
  | h :: hs, i => if startsSeq (h :: hs) needle then some i else findSubGo needle hs (i + 1)

/-- Python `hay.find(needle, start)` (absolute index of the first occurrence
at or after `start`, `none` for the Python `-1`). -/
def findSubFrom (hay needle : List Char) (start : Nat) : Option Nat :=
  (findSubGo needle (hay.drop start) 0).map (· + start)

/-- Python slice `t[s:e]` (clamping, like Python). -/
def sliceL (t : List Char) (s e : Nat) : List Char := (t.drop s).take (e - s)

/-- Python `str.split()` worker: leading whitespace dropped, one word taken. -/
def splitWsGo : Nat → List Char → List (List Char)
  | 0, _ => []
  | Nat.succ f, s =>
    match s.dropWhile isPyWs with
    | [] => []
    | c :: rest =>
      (c :: rest.takeWhile (fun x => !isPyWs x)) ::
        splitWsGo f (rest.dropWhile (fun x => !isPyWs x))

/-- Python `str.split()` (split on whitespace runs, no empty parts). -/
def splitWs (s : List Char) : List (List Char) := splitWsGo (s.length + 1) s

/-- Python `str.split('.')` (empty parts preserved). -/
def splitOnDot : List Char → List (List Char)
  | [] => [[]]
  | c :: rest =>
    let tail := splitOnDot rest
    if c == '.' then [] :: tail
    else
      match tail with
      | [] => [[c]]
      | p :: ps => (c :: p) :: ps

/-! ## Python dict model (association lists, first-occurrence semantics) -/

/-- Python `d.get(k, default)`. -/
def dget {α : Type} : List (String × α) → String → α → α
  | [], _, d => d
  | (k, v) :: rest, key, d => if k = key then v else dget rest key d

/-- Python `k in d`. -/
def dmem {α : Type} : List (String × α) → String → Bool
  | [], _ => false
  | (k, _) :: rest, key => k == key || dmem rest key

/-- Python `d[k] = v` (update in place if the key exists, else append,
matching dict insertion-order semantics). -/
def dset {α : Type} : List (String × α) → String → α → List (String × α)
  | [], key, v => [(key, v)]
  | (k, w) :: rest, key, v => if k = key then (key, v) :: rest else (k, w) :: dset rest key v

/-! ## Python `int()` (for the credit-score validator) -/

/-- Valid tail of a Python integer literal: digits with single underscores
strictly between digits. -/
def pyIntTail : List Char → Bool
  | [] => true
  | '_' :: c :: rest => c.isDigit && pyIntTail rest
  | '_' :: [] => false
  | c :: rest => c.isDigit && pyIntTail rest

/-- Valid body of a Python integer literal (nonempty, leading digit). -/
def pyIntBody : List Char → Bool
  | [] => false
  | c :: rest => c.isDigit && pyIntTail rest

/-- Numeric value of a digit/underscore body. -/
def pyIntVal (s : List Char) : Nat :=
  (s.filter (fun c => c != '_')).foldl (fun acc c => 10 * acc + (c.toNat - '0'.toNat)) 0

/-- Python `int(text)`: optional surrounding whitespace, optional sign,
digits (underscores between digits allowed); `none` models `ValueError`. -/
def pyInt (s : List Char) : Option Int :=
  let t := pyStrip s
  match t with
  | '-' :: rest => if pyIntBody rest then some (-(pyIntVal rest : Int)) else none
  | '+' :: rest => if pyIntBody rest then some (pyIntVal rest : Int) else none
  | rest => if pyIntBody rest then some (pyIntVal rest : Int) else none

/-! ## Lexicons from `regex_redactor.py` and `pii_validator.py`
(Python set literals; duplicates in the source literal are harmless for the
membership tests they are used in). -/

/-- `RegexRedactor.COMMON_FIRST_NAMES`. -/
def commonFirstNames : List String := [
  "john", "jane", "michael", "sarah", "david", "emily", "robert", "lisa",
  "james", "mary", "william", "patricia", "richard", "jennifer", "charles", "linda",
  "joseph", "elizabeth", "thomas", "barbara", "christopher", "susan", "daniel", "jessica",
  "paul", "karen", "mark", "nancy", "donald", "betty", "george", "helen",
  "kenneth", "sandra", "steven", "donna", "edward", "carol", "brian", "ruth",
  "ronald", "sharon", "anthony", "michelle", "kevin", "laura", "jason", "sarah",
  "matthew", "kimberly", "gary", "deborah", "timothy", "dorothy", "jose", "lisa",
  "larry", "nancy", "jeffrey", "karen", "frank", "betty", "scott", "helen",
  "eric", "sandra", "stephen", "donna", "andrew", "carol", "raymond", "ruth",
  "joshua", "sharon", "jerry", "michelle", "dennis", "laura", "walter", "sarah",
  "patrick", "kimberly", "peter", "deborah", "harold", "dorothy", "douglas", "amy",
  "henry", "angela", "carl", "ashley", "arthur", "brenda", "ryan", "pamela",
  "roger", "nicole", "joe", "samantha", "juan", "katherine", "jack", "emma",
  "albert", "anna", "jonathan", "marie", "wayne", "julie", "roy", "joyce",
  "noah", "grace", "eugene", "christina", "ralph", "evelyn", "louis", "rachel",
  "philip", "frances", "austin", "martha", "alan", "olivia", "sean", "sophia",
  "sean", "rose", "mason", "irene", "ethan", "alice", "owen", "jean",
  "liam", "barbara", "elijah", "catherine", "lucas", "margaret", "jacob", "elizabeth",
  "benjamin", "debra", "alexander", "rebecca", "nicholas", "maria", "nathan", "gloria",
  "aaron", "teresa", "isaac", "diane", "edward", "julie", "jordan", "joyce",
  "cooper", "virginia", "evan", "victoria", "andrew", "kelly", "ian", "christina",
  "adam", "joan", "parker", "evelyn", "blake", "judith", "xavier", "megan",
  "dean", "cheryl", "chase", "andrea", "cole", "hannah", "tyler", "jacqueline",
  "marcus", "martha", "miles", "frances"]

/-- `RegexRedactor.COMMON_LAST_NAMES`. -/
def commonLastNames : List String := [
  "smith", "johnson", "williams", "brown", "jones", "garcia", "miller", "davis",
  "rodriguez", "martinez", "hernandez", "lopez", "gonzalez", "wilson", "anderson", "thomas",
  "taylor", "moore", "jackson", "martin", "lee", "perez", "thompson", "white",
  "harris", "sanchez", "clark", "ramirez", "lewis", "robinson", "walker", "young",
  "allen", "king", "wright", "scott", "torres", "nguyen", "hill", "flores",
  "green", "adams", "nelson", "baker", "hall", "rivera", "campbell", "mitchell",
  "carter", "roberts", "gomez", "phillips", "evans", "turner", "diaz", "parker",
  "cruz", "edwards", "collins", "reyes", "stewart", "morris", "morales", "murphy",
  "cook", "rogers", "gutierrez", "ortiz", "morgan", "cooper", "peterson", "bailey",
  "reed", "kelly", "howard", "ramos", "kim", "cox", "ward", "richardson",
  "watson", "brooks", "chavez", "wood", "james", "bennett", "gray", "mendoza",
  "ruiz", "hughes", "price", "alvarez", "castillo", "sanders", "patel", "myers",
  "long", "ross", "foster", "jimenez", "powell", "jenkins", "perry", "russell",
  "sullivan", "bell", "coleman", "butler", "henderson", "barnes", "gonzales", "fisher",
  "vasquez", "simmons", "romero", "jordan", "patterson", "alexander", "hamilton", "graham",
  "reynolds", "griffin", "wallace", "moreno", "west", "cole", "hayes", "bryant",
  "herrera", "gibson", "ellis", "tran", "medina", "aguilar", "stevens", "murray",
  "ford", "castro", "marshall", "owen", "harrison", "fernandez", "mcdonald", "woods",
  "washington", "kennedy", "wells", "vargas", "henry", "chen", "freeman", "webb",
  "tucker", "guzman", "burns", "crawford", "olson", "simpson", "porter", "hunter",
  "gordon", "mendez", "silva", "shaw", "snyder", "mason", "dixon", "munoz",
  "hunt", "hicks", "holmes", "palmer", "wagner", "black", "robertson", "boyd",
  "rose", "stone", "salazar", "fox", "warren", "mills", "meyer", "rice",
  "schmidt", "garza", "daniels", "ferguson", "nichols", "stephens", "soto", "weaver",
  "ryan", "gardner", "payne", "grant", "dunn", "kelley", "spencer", "hawkins",
  "arnold", "pierce", "vazquez", "hansen", "peters", "santos", "hart", "bradley",
  "knight", "elliott", "cunningham", "duncan", "armstrong", "hudson", "carroll", "lane",
  "riley", "andrews", "alonso", "gilbert", "reynolds", "burke", "hanson", "day",
  "robertson", "hicks", "medina"]

/-- `org_indicators` inside `RegexRedactor._is_likely_organization`. -/
def orgIndicators : List String := [
  "company", "corp", "corporation", "inc", "llc", "ltd", "limited", "hospital",
  "medical", "center", "clinic", "university", "college", "school", "bank", "insurance",
  "service", "services", "solutions", "group", "associates", "partners", "firm", "office",
  "department", "division", "team", "organization", "foundation", "institute", "authority", "agency",
  "commission", "board", "council", "committee"]

/-- `PIIValidator.NON_PII_WORDS`. -/
def nonPiiWords : List String := [
  "january", "february", "march", "april", "may", "june", "july", "august",
  "september", "october", "november", "december", "monday", "tuesday", "wednesday", "thursday",
  "friday", "saturday", "sunday", "please", "thank", "thanks", "sincerely", "regards",
  "dear", "subject", "reference", "regarding", "hello", "hi", "hey", "company",
  "corporation", "inc", "incorporated", "llc", "ltd", "department", "university", "college",
  "school", "hospital", "building", "street", "avenue", "road", "boulevard", "lane",
  "product", "service", "model", "device", "system"]

/-- `RegexRedactor.DEFAULT_TAGS`. -/
def defaultTags : List (String × String) := [
  ("email", "[REDACTED_EMAIL]"),
  ("phone", "[REDACTED_PHONE]"),
  ("credit_card", "[REDACTED_CREDIT_CARD]"),
  ("name", "[REDACTED_NAME]"),
  ("address", "[REDACTED_ADDRESS]"),
  ("date", "[REDACTED_DATE]"),
  ("ssn", "[REDACTED_SSN]"),
  ("drivers_license", "[REDACTED_DRIVERS_LICENSE]"),
  ("passport", "[REDACTED_PASSPORT]"),
  ("bank_account", "[REDACTED_BANK_ACCOUNT]"),
  ("ip_address", "[REDACTED_IP_ADDRESS]"),
  ("medical_record", "[REDACTED_MEDICAL_RECORD]"),
  ("employee_id", "[REDACTED_EMPLOYEE_ID]"),
  ("license_plate", "[REDACTED_LICENSE_PLATE]"),
  ("vin", "[REDACTED_VIN]"),
  ("insurance_policy", "[REDACTED_INSURANCE_POLICY]"),
  ("tax_id", "[REDACTED_TAX_ID]"),
  ("credit_score", "[REDACTED_CREDIT_SCORE]"),
  ("biometric", "[REDACTED_BIOMETRIC]"),
  ("personal_url", "[REDACTED_PERSONAL_URL]"),
  ("mac_address", "[REDACTED_MAC_ADDRESS]"),
  ("guid", "[REDACTED_GUID]")]

/-! ## Match validators (`RegexRedactor._validate_pii_match` and helpers) -/

/-- The apostrophe character (ASCII 39). -/
def apos : Char := Char.ofNat 39

/-- Python `"".islower()`-style test: at least one cased character and no
uppercase character (ASCII). -/
def pyIsLower (s : List Char) : Bool :=
  s.any (fun c => c.isLower || c.isUpper) && s.all (fun c => !c.isUpper)

/-- First character is uppercase (Python `part[0].isupper()`; false for
the empty string, which cannot occur for split parts). -/
def headIsUpper : List Char → Bool
  | [] => false
  | c :: _ => c.isUpper

/-- Python `part.endswith('.')`. -/
def endsWithDot (s : List Char) : Bool :=
  match s.reverse with
  | [] => false
  | c :: _ => c == '.'

/-- `RegexRedactor._is_likely_name`, translated clause for clause. -/
def isLikelyName (text : List Char) : Bool :=
  let parts := splitWs text
  if parts.length < 2 || parts.length > 4 then false
  else
    let firstName := String.mk (pyLower (parts.headD []))
    let lastName := String.mk (pyLower (parts.getLastD []))
    if commonFirstNames.contains firstName && commonLastNames.contains lastName then true
    else if commonFirstNames.contains firstName || commonLastNames.contains lastName then
      parts.all (fun part =>
        (headIsUpper part && pyIsLower (part.drop 1)) ||
          (part.length == 2 && endsWithDot part))
    else
      parts.all (fun part =>
        decide (2 ≤ part.length) && headIsUpper part &&
          part.all (fun c => c.isAlpha || c == apos || c == '-' || c == '.'))

/-- `RegexRedactor._is_likely_organization`: any indicator is a substring of
the lowercased text. -/
def isLikelyOrganization (text : List Char) : Bool :=
  orgIndicators.any (fun ind => containsSeq (pyLower text) ind.toList)

/-- Branch of `_validate_pii_match` for `credit_score`:
`int(text)` in `[300, 850]`, `ValueError` → reject. -/
def validateCreditScore (txt : List Char) : Bool :=
  match pyInt txt with
  | some score => decide (300 ≤ score) && decide (score ≤ 850)
  | none => false

/-- Branch of `_validate_pii_match` for `ip_address`: reject all-zero or
all-255 dotted quads, accept anything else. -/
def validateIpAddr (txt : List Char) : Bool :=
  let parts := splitOnDot txt
  if parts.length == 4 then
    !(parts.all (fun p => p == ['0']) || parts.all (fun p => p == ['2', '5', '5']))
  else true

/-- Branch of `_validate_pii_match` for `phone`: 10–15 digits after
stripping formatting. -/
def validatePhone (txt : List Char) : Bool :=
  let digitsOnly := txt.filter Char.isDigit
  decide (10 ≤ digitsOnly.length) && decide (digitsOnly.length ≤ 15)

/-- Branch of `_validate_pii_match` for `drivers_license`: the lowercased
stripped text must not be a known false positive. -/
def validateDl (txt : List Char) : Bool :=
  let textLower := pyStrip (pyLower txt)
  !((["test", "example", "sample", "dummy"].map String.toList).contains textLower)

/-- Python `str.isdigit()` (nonempty, all digits). -/
def pyIsDigitStr (s : List Char) : Bool :=
  !s.isEmpty && s.all Char.isDigit

/-- Python `len(set(text)) == 1` for a nonempty string: all characters equal. -/
def allSameChar : List Char → Bool
  | [] => false
  | c :: rest => rest.all (fun x => x == c)

/-- Branch of `_validate_pii_match` for `bank_account`: reject a repeated
single digit or the two known dummy sequences. -/
def validateBankAccount (txt : List Char) : Bool :=
  if pyIsDigitStr txt &&
      (allSameChar txt || txt == "12345678".toList || txt == "87654321".toList) then false
  else true

/-- `RegexRedactor._validate_pii_match`: dispatch on the PII type, default
accept. -/
def validatePii (txt : List Char) (piiType : String) : Bool :=
  match piiType with
  | "name" => isLikelyName txt && !isLikelyOrganization txt
  | "credit_score" => validateCreditScore txt
  | "ip_address" => validateIpAddr txt
  | "phone" => validatePhone txt
  | "drivers_license" => validateDl txt
  | "bank_account" => validateBankAccount txt
  | _ => true

/-! ## A small backtracking regex matcher with Python preference order

Alternation prefers the left branch, `?`, `*`, `{m,n}` are greedy, `\b` is a
word boundary; `finditer` scans left to right and resumes after each match,
exactly like `re.finditer`.  The matcher returns candidate end positions in
backtracking preference order; the head is the match Python reports. -/

/-- Regex abstract syntax: the constructs used by the embedded patterns. -/
inductive RE where
  | eps : RE
  | cls : (Char → Bool) → RE
  | seq : RE → RE → RE
  | alt : RE → RE → RE
  | opt : RE → RE
  | rep : RE → Nat → Nat → RE
  | star : RE → RE
  | wb : RE

/-- Python `\w` (ASCII range). -/
def isWordChar (c : Char) : Bool := c.isAlphanum || c == '_'

/-- Word-boundary test of `\b` at position `i` of `t`. -/
def boundaryAt (t : List Char) (i : Nat) : Bool :=
  let left :=
    if i == 0 then false
    else match t.get? (i - 1) with
      | some c => isWordChar c
      | none => false
  let right :=
    match t.get? i with
    | some c => isWordChar c
    | none => false
  left != right

/-- Fuelled matcher: end positions (in preference order) of matches of `r`
starting at `pos` in `t`.  The fuel only bounds recursion depth; the initial
fuel passed by `finditer` is far above what any embedded pattern needs. -/
def reRun (t : List Char) : Nat → RE → Nat → List Nat
  | 0, _, _ => []
  | Nat.succ f, r, pos =>
    match r with
    | .eps => [pos]
    | .wb => if boundaryAt t pos then [pos] else []
    | .cls p =>
      match t.get? pos with
      | some c => if p c then [pos + 1] else []
      | none => []
    | .seq a b => (reRun t f a pos).flatMap fun q => reRun t f b q
    | .alt a b => reRun t f a pos ++ reRun t f b pos
    | .opt a => reRun t f a pos ++ [pos]
    | .star a =>
      ((reRun t f a pos).flatMap fun q =>
        if pos < q then reRun t f (.star a) q else [q]) ++ [pos]
    | .rep a lo hi =>
      match lo, hi with
      | 0, 0 => [pos]
      | 0, Nat.succ h =>
        ((reRun t f a pos).flatMap fun q =>
          if pos < q then reRun t f (.rep a 0 h) q else [q]) ++ [pos]
      | Nat.succ l, Nat.succ h => (reRun t f a pos).flatMap fun q => reRun t f (.rep a l h) q
      | Nat.succ _, 0 => []

/-- Fuel used for a single anchored match attempt. -/
def reFuel (t : List Char) : Nat := (t.length + 2) * 64

/-- The preferred (Python) match of `r` anchored at `pos`, as an end
position. -/
def reMatchAt (r : RE) (t : List Char) (pos : Nat) : Option Nat :=
  (reRun t (reFuel t) r pos).head?

/-- Worker for `finditer`: scan positions left to right, resume after each
match (advance by one on a zero-width match, like `re`). -/
def finditGo (r : RE) (t : List Char) : Nat → Nat → List (Nat × Nat)
  | 0, _ => []
  | Nat.succ f, pos =>
    if pos > t.length then []
    else
      match reMatchAt r t pos with
      | some e => if pos < e then (pos, e) :: finditGo r t f e else (pos, e) :: finditGo r t f (pos + 1)
      | none => finditGo r t f (pos + 1)

/-- `re.finditer(pattern, text)` as a list of `(start, end)` spans. -/
def finditer (r : RE) (t : List Char) : List (Nat × Nat) :=
  finditGo r t (t.length + 2) 0

/-- Replacement splice: rewrite each matched span with `repl`, keeping the
text between matches (worker of `reSub`). -/
def spliceAll (t repl : List Char) : Nat → List (Nat × Nat) → List Char
  | p, [] => t.drop p
  | p, (s, e) :: ms => (t.drop p).take (s - p) ++ repl ++ spliceAll t repl e ms

/-- `re.sub(pattern, repl, text)` for a constant replacement. -/
def reSub (r : RE) (repl : String) (t : List Char) : List Char :=
  spliceAll t repl.toList 0 (finditer r t)

/-! ## Pattern constructors -/

/-- Literal character. -/
def litc (c : Char) : RE := .cls (fun x => x == c)

/-- Case-insensitive literal character (inside `(?i: ...)`). -/
def ilitc (c : Char) : RE := .cls (fun x => x.toLower == c.toLower)

/-- Sequence of a list of regexes. -/
def seqList (l : List RE) : RE := l.foldr RE.seq .eps

/-- Literal string. -/
def litS (s : String) : RE := seqList (s.toList.map litc)

/-- Case-insensitive literal string. -/
def ilitS (s : String) : RE := seqList (s.toList.map ilitc)

/-- Character class given by an explicit character set. -/
def oneOf (s : String) : RE := .cls (fun c => s.toList.contains c)

/-- `x+` as `x x*`. -/
def plus1 (r : RE) : RE := .seq r (.star r)

/-- `\s` (Python whitespace class, ASCII). -/
def wsC : RE := .cls isPyWs

/-- `\d`. -/
def digitC : RE := .cls Char.isDigit

/-- `[A-Z]`. -/
def upperC : RE := oneOf "ABCDEFGHIJKLMNOPQRSTUVWXYZ"

/-- `[A-Z0-9]`. -/
def upperDigitC : RE := oneOf "ABCDEFGHIJKLMNOPQRSTUVWXYZ0123456789"

/-- `[A-Z_]`. -/
def upperUscoreC : RE := oneOf "ABCDEFGHIJKLMNOPQRSTUVWXYZ_"

/-- `[\s:]`. -/
def wsColonC : RE := .cls (fun c => isPyWs c || c == ':')

/-- `[\s#:]`. -/
def wsHashColonC : RE := .cls (fun c => isPyWs c || c == '#' || c == ':')

/-- `[-.\s]`. -/
def dashDotWsC : RE := .cls (fun c => c == '-' || c == '.' || isPyWs c)

/-! ## The embedded pattern table (`RegexRedactor.PATTERNS`)

The four patterns exercised by the claims are encoded construct for
construct from the regex literals in `regex_redactor.py`. -/

/-- `PATTERNS["ssn"] =
`(?i:(?:Social\s+Security|SSN)(?:\s+Number)?[\s:]*)?(?:\b\d{3}[-.\s]?\d{2}[-.\s]?\d{4}\b)`. -/
def ssnRE : RE :=
  .seq
    (.opt (seqList [
      .alt (seqList [ilitS "Social", plus1 wsC, ilitS "Security"]) (ilitS "SSN"),
      .opt (.seq (plus1 wsC) (ilitS "Number")),
      .star wsColonC]))
    (seqList [.wb, .rep digitC 3 3, .opt dashDotWsC, .rep digitC 2 2,
      .opt dashDotWsC, .rep digitC 4 4, .wb])

/-- `PATTERNS["drivers_license"]` (apostrophe written via `apos`):
the optional `(?i: ...)` clue followed by the four alternatives
`\b[A-Z]{1,2}\d{6,8}\b`, `\b\d{8,9}\b`, `\b[A-Z]\d{7,8}\b`,
`\b\d{2,3}-\d{2,3}-\d{4,6}\b`. -/
def driversLicenseRE : RE :=
  .seq
    (.opt (.seq
      (.alt (seqList [ilitS "Driver", .opt (litc apos), .opt (ilitc 's'),
          plus1 wsC, ilitS "License"])
        (.alt (ilitS "DL") (ilitS "License")))
      (.star wsHashColonC)))
    (.alt (seqList [.wb, .rep upperC 1 2, .rep digitC 6 8, .wb])
      (.alt (seqList [.wb, .rep digitC 8 9, .wb])
        (.alt (seqList [.wb, upperC, .rep digitC 7 8, .wb])
          (seqList [.wb, .rep digitC 2 3, litc '-', .rep digitC 2 3, litc '-',
            .rep digitC 4 6, .wb]))))

/-- `PATTERNS["biometric"] =
`(?i:(?:Fingerprint|Biometric|Retina|DNA)(?:\s+(?:ID|Data))?[\s#:]*)?(?:\b[A-Z0-9]{8,20}\b)`. -/
def biometricRE : RE :=
  .seq
    (.opt (seqList [
      .alt (ilitS "Fingerprint") (.alt (ilitS "Biometric") (.alt (ilitS "Retina") (ilitS "DNA"))),
      .opt (.seq (plus1 wsC) (.alt (ilitS "ID") (ilitS "Data"))),
      .star wsHashColonC]))
    (seqList [.wb, .rep upperDigitC 8 20, .wb])

/-- `PATTERNS["credit_score"] =
`(?i:(?:Credit\s+Score|FICO|Score)[\s:]*)?(?:\b[3-8]\d{2}\b)`. -/
def creditScoreRE : RE :=
  .seq
    (.opt (.seq
      (.alt (seqList [ilitS "Credit", plus1 wsC, ilitS "Score"])
        (.alt (ilitS "FICO") (ilitS "Score")))
      (.star wsColonC)))
    (seqList [.wb, oneOf "345678", .rep digitC 2 2, .wb])

/-- The pattern table restricted to the categories the claims exercise
(`PATTERNS` has 22 entries; the universal theorems below are parametric in
the table, the concrete evaluations use these four faithful encodings). -/
def patternsE : String → Option RE
  | "ssn" => some ssnRE
  | "drivers_license" => some driversLicenseRE
  | "biometric" => some biometricRE
  | "credit_score" => some creditScoreRE
  | _ => none

/-! ## Cleanup patterns (`clean_overlapping_redactions`) and the
`possible_id` pattern of `PIIValidator.validate_text`. -/

/-- `\[REDACTED_[A-Z_]+\]`. -/
def tagTokenRE : RE := seqList [litS "[REDACTED_", plus1 upperUscoreC, litS "]"]

/-- `\[REDACTED_[A-Z_]+\](\s*\[REDACTED_[A-Z_]+\])+`. -/
def tagRunRE : RE := .seq tagTokenRE (plus1 (.seq (.star wsC) tagTokenRE))

/-- `\s+\[REDACTED`. -/
def wsBeforeTagRE : RE := .seq (plus1 wsC) (litS "[REDACTED")

/-- `\]\s+`. -/
def bracketWsRE : RE := .seq (litS "]") (plus1 wsC)

/-- `\b[A-Z0-9]{6,12}\b` (the `possible_id` heuristic scan). -/
def possibleIdRE : RE := seqList [.wb, .rep upperDigitC 6 12, .wb]

/-- `RegexRedactor.clean_overlapping_redactions`: collapse runs of two or
more adjacent tags into `[REDACTED]`, then normalize whitespace around
tags. -/
def cleanOverlappingRedactions (t : List Char) : List Char :=
  reSub bracketWsRE "] " (reSub wsBeforeTagRE " [REDACTED" (reSub tagRunRE "[REDACTED]" t))

/-! ## Matches and the deterministic redactor (`regex_redactor.py`) -/

/-- `RedactionMatch` dataclass (`end` is a Lean keyword, rendered `stop`). -/
structure RedactionMatch where
  start : Nat
  stop : Nat
  txt : String
  piiType : String
  repl : String
  conf : ℚ := 1
deriving DecidableEq, Repr

/-- Tag lookup: `tags.get(pii_type, f"[REDACTED_{pii_type.upper()}]")`. -/
def tagFor (tags : List (String × String)) (ty : String) : String :=
  dget tags ty ("[REDACTED_" ++ pyUpperS ty ++ "]")

/-- Tag table `{**DEFAULT_TAGS, **custom_tags}`. -/
def updateTags (custom : List (String × String)) : List (String × String) :=
  custom.foldl (fun acc kv => dset acc kv.1 kv.2) defaultTags

/-- Stable ascending insertion by `start` (a later element goes after equal
keys, so the insertion sort below is stable, like the Python `list.sort`). -/
def insAsc (m : RedactionMatch) : List RedactionMatch → List RedactionMatch
  | [] => [m]
  | x :: xs => if x.start < m.start then x :: insAsc m xs else m :: x :: xs

/-- `matches.sort(key=lambda x: x.start)` (stable). -/
def sortAscM : List RedactionMatch → List RedactionMatch
  | [] => []
  | m :: ms => insAsc m (sortAscM ms)

/-- Stable descending insertion by `start`. -/
def insDesc (m : RedactionMatch) : List RedactionMatch → List RedactionMatch
  | [] => [m]
  | x :: xs => if m.start < x.start then x :: insDesc m xs else m :: x :: xs

/-- `matches.sort(key=lambda m: m.start, reverse=True)` (stable). -/
def sortDescM : List RedactionMatch → List RedactionMatch
  | [] => []
  | m :: ms => insDesc m (sortDescM ms)

/-- One substitution step of the redaction loop:
`text[:m.start] + m.replacement + text[m.end:]`. -/
def applyOne (t : List Char) (m : RedactionMatch) : List Char :=
  t.take m.start ++ m.repl.toList ++ t.drop m.stop

/-- `RegexRedactor.find_pii_matches`, parametric in the pattern table `pt`
(instantiated with `patternsE` for concrete runs): for each requested type
with a pattern, every `finditer` match that passes `_validate_pii_match`
becomes a `RedactionMatch`; the result is sorted by start position. -/
def findPiiMatches (pt : String → Option RE) (text : List Char) (types : List String)
    (custom : List (String × String)) : List RedactionMatch :=
  let tags := updateTags custom
  sortAscM (types.foldl (fun acc ty =>
    match pt ty with
    | none => acc
    | some r =>
      acc ++ ((finditer r text).filter
          (fun se => validatePii (sliceL text se.1 se.2) ty)).map
        (fun se => { start := se.1, stop := se.2, txt := String.mk (sliceL text se.1 se.2),
                     piiType := ty, repl := tagFor tags ty }))
    [])

/-- `RegexRedactor.redact_text`: find matches, build the per-type summary,
apply replacements over the reversed (ascending-sorted) match list. -/
def redactText (pt : String → Option RE) (text : List Char) (types : List String)
    (custom : List (String × String)) : List Char × List (String × Nat) :=
  let ms := findPiiMatches pt text types custom
  let summary := types.foldl
    (fun acc ty => dset acc ty ((ms.filter (fun m => m.piiType == ty)).length)) []
  (ms.reverse.foldl applyOne text, summary)

/-! ## Merge step (`ImprovedPIIService._combine_and_deduplicate_matches`) -/

/-- The overlap test of the merge loop:
`not (llm_match.end <= start or llm_match.start >= end)`. -/
def rangeHits (b : RedactionMatch) (r : Nat × Nat) : Bool :=
  !(decide (b.stop ≤ r.1) || decide (b.start ≥ r.2))

/-- `_combine_and_deduplicate_matches`: keep all regex matches, then add
each LLM match whose span hits none of the ranges accepted so far. -/
def combineAndDeduplicateMatches (regexMs llmMs : List RedactionMatch) :
    List RedactionMatch :=
  (llmMs.foldl
    (fun st b =>
      if st.2.any (rangeHits b) then st
      else (st.1 ++ [b], st.2 ++ [(b.start, b.stop)]))
    (regexMs, regexMs.map fun m => (m.start, m.stop))).1

/-- Secondary-span acceptance as the specification words it: a
detector-derived span is added if and only if its range does not overlap any
already-accepted range (this definition follows §4.3 of the spec and is
compared with `combineAndDeduplicateMatches` in claim C3). -/
def acceptedSecondaries : List (Nat × Nat) → List RedactionMatch → List RedactionMatch
  | _, [] => []
  | ranges, b :: bs =>
    if ranges.any (rangeHits b) then acceptedSecondaries ranges bs
    else b :: acceptedSecondaries (ranges ++ [(b.start, b.stop)]) bs

/-! ## The hybrid orchestrator (`ImprovedPIIService._hybrid_redact`) -/

/-- `RedactResponse` model (`models.py`), text as `List Char`. -/
structure RedactResponse where
  original : List Char
  redacted : List Char
  summary : List (String × Nat)
  typesUsed : List String
deriving DecidableEq, Repr

/-- The external detector collaborator as an oracle: connectivity, the
outcome of `redact_pii`, and the summary `analyze_pii` reports. -/
structure DetectorOracle where
  connected : Bool
  redactOk : Bool
  llmRedacted : List Char
  analyzeSummary : List (String × Nat)
deriving DecidableEq, Repr

/-- Return triple `(success, response, error)` of `_hybrid_redact`. -/
structure HybridOutcome where
  ok : Bool
  resp : RedactResponse
  err : Option String
deriving DecidableEq, Repr

/-- Occurrence scan of one tag inside the LLM-rewritten text
(the `while True: tag_idx = redacted_text.find(tag, start_idx)` loop of
`_extract_llm_matches`). -/
def tagOccurrences (red tag : List Char) (ty : String) : Nat → Nat → List RedactionMatch
  | 0, _ => []
  | Nat.succ f, k =>
    match findSubFrom red tag k with
    | none => []
    | some i =>
      { start := i, stop := i + tag.length, txt := "LLM_DETECTED_" ++ ty,
        piiType := ty, repl := String.mk tag, conf := 9/10 } ::
        tagOccurrences red tag ty f (i + tag.length)

/-- `ImprovedPIIService._extract_llm_matches` (the original text parameter is
unused by the source body as well). -/
def extractLlmMatches (redacted : List Char) (types : List String)
    (custom : List (String × String)) : List RedactionMatch :=
  let tags := updateTags custom
  let tagToType : List (String × String) :=
    types.foldl (fun acc ty => dset acc (tagFor tags ty) ty) []
  tagToType.foldl
    (fun acc p => acc ++ tagOccurrences redacted p.1.toList p.2 (redacted.length + 1) 0) []

/-- Loop of the category split of `_hybrid_redact`. -/
def splitSupportedGo (pt : String → Option RE) :
    List String → List String × List String → List String × List String
  | [], acc => acc
  | ty :: rest, acc =>
    if (pt ty).isSome then splitSupportedGo pt rest (acc.1 ++ [ty], acc.2)
    else splitSupportedGo pt rest (acc.1, acc.2 ++ [ty])

/-- Category split of `_hybrid_redact`: regex-supported types and LLM-only
types, in request order. -/
def splitSupported (pt : String → Option RE) (types : List String) :
    List String × List String :=
  splitSupportedGo pt types ([], [])

/-- Loop of step 1 of `_hybrid_redact`. -/
def collectRegexGo (pt : String → Option RE) (text : List Char)
    (custom : List (String × String)) :
    List String → List RedactionMatch × List (String × Nat) →
      List RedactionMatch × List (String × Nat)
  | [], acc => acc
  | ty :: rest, acc =>
    let ms := findPiiMatches pt text [ty] custom
    collectRegexGo pt text custom rest (acc.1 ++ ms, dset acc.2 ty ms.length)

/-- Step 1 of `_hybrid_redact`: per-type `find_pii_matches` collection
(`regex_matches.extend(matches)`) and the regex summary dict. -/
def collectRegexMatches (pt : String → Option RE) (text : List Char)
    (regexTypes : List String) (custom : List (String × String)) :
    List RedactionMatch × List (String × Nat) :=
  collectRegexGo pt text custom regexTypes ([], [])

/-- The summary merge of `_hybrid_redact` (identical in
`improved_pii_service.py` lines 204–212 and `pii_service.py` lines 118–126):
start from the regex summary, take `max` with each LLM-reported count, then
ensure every requested type is present. -/
def combineSummaries (rs ls : List (String × Nat)) (types : List String) :
    List (String × Nat) :=
  let c1 := ls.foldl (fun acc kv => dset acc kv.1 (max (dget acc kv.1 0) kv.2)) rs
  types.foldl (fun acc ty => if dmem acc ty then acc else dset acc ty 0) c1

/-- `ImprovedPIIService._hybrid_redact` as a pure function of the request and
the detector oracle: split, regex pass, optional detector pass, merge, apply
in descending-start order, clean up, merge summaries. -/
def improvedHybridRedact (pt : String → Option RE) (text : List Char)
    (types : List String) (custom : List (String × String)) (o : DetectorOracle) :
    HybridOutcome :=
  let rt := (splitSupported pt types).1
  let col := collectRegexMatches pt text rt custom
  let llm :=
    if o.connected then
      if o.redactOk then (extractLlmMatches o.llmRedacted types custom, o.analyzeSummary)
      else ([], [])
    else ([], [])
  let allMs := combineAndDeduplicateMatches col.1 llm.1
  let red := cleanOverlappingRedactions ((sortDescM allMs).foldl applyOne text)
  { ok := true,
    resp := { original := text, redacted := red,
              summary := combineSummaries col.2 llm.2 types, typesUsed := types },
    err := none }

/-! ## Gap validation (`pii_validator.py`) -/

/-- One entry of the `potential_pii` list built by `validate_text`. -/
structure GapCandidate where
  ty : String
  txt : String
  s : Nat
  e : Nat
  conf : ℚ
  why : String
deriving DecidableEq, Repr

/-- `PIIValidator._is_already_redacted`: overlap with any redacted range. -/
def isAlreadyRedacted (s e : Nat) (ar : List (Nat × Nat)) : Bool :=
  ar.any (fun r => !(decide (e ≤ r.1) || decide (s ≥ r.2)))

/-- Scan 3 of `PIIValidator.validate_text`: bare uppercase-alphanumeric
tokens of length 6–12 become `possible_id` candidates with confidence 0.6
unless already redacted or stop-listed. -/
def possibleIdScan (text : List Char) (ar : List (Nat × Nat)) : List GapCandidate :=
  ((finditer possibleIdRE text).filter
    (fun se => !isAlreadyRedacted se.1 se.2 ar &&
      !(nonPiiWords.contains (String.mk (pyLower (sliceL text se.1 se.2)))))).map
    (fun se => { ty := "possible_id", txt := String.mk (sliceL text se.1 se.2),
                 s := se.1, e := se.2, conf := 3/5,
                 why := "Alphanumeric token of suspicious length" })

/-- Stable descending insertion by candidate start. -/
def insDescC (m : GapCandidate) : List GapCandidate → List GapCandidate
  | [] => [m]
  | x :: xs => if m.s < x.s then x :: insDescC m xs else m :: x :: xs

/-- `potential_missed_pii.sort(key=lambda x: x.position.0, reverse=True)`. -/
def sortDescC : List GapCandidate → List GapCandidate
  | [] => []
  | m :: ms => insDescC m (sortDescC ms)

/-- One iteration of the application loop of `enhance_redaction`: apply the
candidate replacement only when its confidence is at least 0.8. -/
def applyCandidate (t : List Char) (c : GapCandidate) : List Char :=
  if (4 : ℚ)/5 ≤ c.conf then
    t.take c.s ++ ("[REDACTED_" ++ pyUpperS c.ty ++ "]").toList ++ t.drop c.e
  else t

/-- The application phase of `PIIValidator.enhance_redaction` (lines
186–196): sort candidates by start descending, then apply the
confidence-gated replacements. -/
def enhanceApplyCandidates (t : List Char) (cands : List GapCandidate) : List Char :=
  (sortDescC cands).foldl applyCandidate t

/-! ## Request validation (`models.py`) -/

/-- The accepted category set of `RedactRequest.validate_redact_types`. -/
def validTypesList : List String := ["name", "email", "phone", "address", "credit_card", "date"]

/-- A validated request (what survives pydantic validation). -/
structure RedactRequestOk where
  text : String
  redactTypes : List String
  customTags : List (String × String)
deriving DecidableEq, Repr

/-- Construction of a `RedactRequest`: the pydantic field checks in
declaration order — `text` min length 1, every requested type in the valid
set, every custom-tag key among the requested types.  An `error` result
models the `ValidationError` raised before any processing. -/
def mkRedactRequest (text : String) (types : List String)
    (custom : List (String × String)) : Except String RedactRequestOk :=
  if text.length < 1 then .error "text too short" else
  if types.all (fun ty => validTypesList.contains ty) then
    if custom.all (fun kv => types.contains kv.1) then
      .ok { text := text, redactTypes := types, customTags := custom }
    else .error "Custom tag for type not in redact_types"
  else .error "Invalid PII types"

/-- Did validation succeed? -/
def exceptOk {ε α : Type} : Except ε α → Bool
  | .ok _ => true
  | .error _ => false

/-! ## Specification-side descriptions used by the frame claims -/

/-- Specification-side rendering of a redaction plan: the text with exactly
the listed spans replaced by their tags, everything else kept in order
(used to state the frame property of claim C9). -/
def renderPlan (t : List Char) : Nat → List RedactionMatch → List Char
  | p, [] => t.drop p
  | p, m :: ms => (t.drop p).take (m.start - p) ++ m.repl.toList ++ renderPlan t m.stop ms

/-- Sorted, pairwise-disjoint, in-bounds match lists (the span invariant of
the spec, §3, for a text of length `n`). -/
def SortedDisjoint (n : Nat) (ms : List RedactionMatch) : Prop :=
  List.Chain' (fun a b => a.stop ≤ b.start) ms ∧
    ∀ m ∈ ms, m.start ≤ m.stop ∧ m.stop ≤ n


/-! ## Lemmas about the dict model -/

theorem dget_dset_same {α : Type} (d : List (String × α)) (k : String) (v : α) (d0 : α) :
    dget (dset d k v) k d0 = v := by
  induction d with
  | nil => simp [dset, dget]
  | cons kv rest ih =>
    obtain ⟨k', w⟩ := kv
    by_cases h : k' = k
    · simp [dset, h, dget]
    · simp [dset, h, dget, ih]

theorem dget_dset_ne {α : Type} (d : List (String × α)) (k c : String) (v : α) (d0 : α)
    (h : k ≠ c) : dget (dset d k v) c d0 = dget d c d0 := by
  induction d with
  | nil => simp [dset, dget, h]
  | cons kv rest ih =>
    obtain ⟨k', w⟩ := kv
    by_cases h' : k' = k
    · subst h'; simp [dset, dget, h]
    · simp [dset, h', dget, ih]

theorem dmem_dset {α : Type} (d : List (String × α)) (k c : String) (v : α) :
    dmem (dset d k v) c = (dmem d c || k == c) := by
  induction d with
  | nil => simp [dset, dmem]
  | cons kv rest ih =>
    obtain ⟨k', w⟩ := kv
    by_cases h : k' = k
    · subst h; simp [dset, dmem]
      tauto
    · simp [dset, h, dmem, ih, Bool.or_assoc]

theorem dget_default_of_not_dmem {α : Type} (d : List (String × α)) (c : String) (d0 : α)
    (h : dmem d c = false) : dget d c d0 = d0 := by
  induction d with
  | nil => simp [dget]
  | cons kv rest ih =>
    obtain ⟨k, w⟩ := kv
    simp only [dmem, Bool.or_eq_false_iff, beq_eq_false_iff_ne] at h
    simp [dget, h.1, ih h.2]

theorem dmem_false_of_not_mem_keys {α : Type} (d : List (String × α)) (c : String)
    (h : c ∉ d.map Prod.fst) : dmem d c = false := by
  induction d with
  | nil => simp [dmem]
  | cons kv rest ih =>
    simp only [List.map_cons, List.mem_cons] at h
    push_neg at h
    simp [dmem, ih h.2, beq_eq_false_iff_ne, Ne.symm h.1]

/-! ## Lemmas about the summary merge -/

theorem combinePhase1_dget (ls : List (String × Nat)) :
    ∀ (rs : List (String × Nat)) (c : String), (ls.map Prod.fst).Nodup →
      dget (ls.foldl (fun acc kv => dset acc kv.1 (max (dget acc kv.1 0) kv.2)) rs) c 0
        = max (dget rs c 0) (dget ls c 0) := by
  induction ls with
  | nil => intro rs c _; simp [dget]
  | cons kv rest ih =>
    intro rs c hnd
    obtain ⟨k, v⟩ := kv
    simp only [List.map_cons, List.nodup_cons] at hnd
    simp only [List.foldl_cons]
    rw [ih _ c hnd.2]
    by_cases h : k = c
    · subst h
      rw [dget_dset_same]
      have hm : dmem rest k = false := dmem_false_of_not_mem_keys rest k hnd.1
      rw [dget_default_of_not_dmem rest k 0 hm]
      simp [dget]
    · rw [dget_dset_ne _ _ _ _ _ h]
      simp [dget, Ne.symm, h]

theorem combinePhase2_dget (types : List String) :
    ∀ (acc : List (String × Nat)) (c : String),
      dget (types.foldl (fun acc ty => if dmem acc ty then acc else dset acc ty 0) acc) c 0
        = dget acc c 0 := by
  induction types with
  | nil => intro acc c; rfl
  | cons ty rest ih =>
    intro acc c
    simp only [List.foldl_cons]
    rw [ih]
    by_cases hm : dmem acc ty
    · simp [hm]
    · simp only [hm, Bool.false_eq_true, if_false]
      by_cases h : ty = c
      · subst h
        rw [dget_dset_same, dget_default_of_not_dmem acc ty 0 (by simpa using hm)]
      · rw [dget_dset_ne _ _ _ _ _ h]

theorem combinePhase2_dmem (types : List String) :
    ∀ (acc : List (String × Nat)) (c : String), (c ∈ types ∨ dmem acc c = true) →
      dmem (types.foldl (fun acc ty => if dmem acc ty then acc else dset acc ty 0) acc) c
        = true := by
  induction types with
  | nil =>
    intro acc c h
    rcases h with h | h
    · simp at h
    · simpa using h
  | cons ty rest ih =>
    intro acc c h
    simp only [List.foldl_cons]
    apply ih
    rcases h with h | h
    · rcases List.mem_cons.mp h with h | h
      · subst h
        right
        by_cases hm : dmem acc c
        · simp [hm]
        · simp [hm, dmem_dset]
      · left; exact h
    · right
      by_cases hm : dmem acc ty
      · simpa [hm] using h
      · simp [hm, dmem_dset, h]

/-! ## Lemmas about the merge step -/

theorem combine_foldl_spec (lm : List RedactionMatch) :
    ∀ (accM : List RedactionMatch) (ranges : List (Nat × Nat)),
      (lm.foldl
        (fun st b =>
          if st.2.any (rangeHits b) then st
          else (st.1 ++ [b], st.2 ++ [(b.start, b.stop)]))
        (accM, ranges)).1
        = accM ++ acceptedSecondaries ranges lm := by
  induction lm with
  | nil => intro accM ranges; simp [acceptedSecondaries]
  | cons b rest ih =>
    intro accM ranges
    simp only [List.foldl_cons, acceptedSecondaries]
    by_cases h : ranges.any (rangeHits b)
    · simp only [h, if_true]
      exact ih accM ranges
    · simp only [h, Bool.false_eq_true, if_false]
      rw [ih (accM ++ [b]) (ranges ++ [(b.start, b.stop)])]
      simp

theorem combine_eq (rm lm : List RedactionMatch) :
    combineAndDeduplicateMatches rm lm
      = rm ++ acceptedSecondaries (rm.map fun m => (m.start, m.stop)) lm := by
  unfold combineAndDeduplicateMatches
  exact combine_foldl_spec lm rm _

theorem acceptedSecondaries_subset (lm : List RedactionMatch) :
    ∀ (ranges : List (Nat × Nat)) (b : RedactionMatch),
      b ∈ acceptedSecondaries ranges lm → b ∈ lm := by
  induction lm with
  | nil => intro ranges b hb; simp [acceptedSecondaries] at hb
  | cons x rest ih =>
    intro ranges b hb
    simp only [acceptedSecondaries] at hb
    by_cases h : ranges.any (rangeHits x)
    · rw [if_pos h] at hb
      exact List.mem_cons_of_mem x (ih _ _ hb)
    · rw [if_neg h] at hb
      rcases List.mem_cons.mp hb with h1 | h1
      · exact h1 ▸ List.mem_cons_self x rest
      · exact List.mem_cons_of_mem x (ih _ _ h1)

theorem acceptedSecondaries_no_overlap (lm : List RedactionMatch) :
    ∀ (ranges : List (Nat × Nat)) (b : RedactionMatch),
      b ∈ acceptedSecondaries ranges lm → ∀ r ∈ ranges, rangeHits b r = false := by
  induction lm with
  | nil => intro ranges b hb; simp [acceptedSecondaries] at hb
  | cons x rest ih =>
    intro ranges b hb r hr
    simp only [acceptedSecondaries] at hb
    by_cases h : ranges.any (rangeHits x)
    · rw [if_pos h] at hb
      exact ih _ _ hb r hr
    · rw [if_neg h] at hb
      rcases List.mem_cons.mp hb with h1 | h1
      · subst h1
        rw [List.any_eq_true] at h
        push_neg at h
        simpa using h r hr
      · exact ih _ _ h1 r (List.mem_append_left _ hr)

theorem acceptedSecondaries_pairwise (lm : List RedactionMatch) :
    ∀ ranges : List (Nat × Nat),
      List.Pairwise (fun a b => rangeHits b (a.start, a.stop) = false)
        (acceptedSecondaries ranges lm) := by
  induction lm with
  | nil => intro ranges; simp [acceptedSecondaries]
  | cons x rest ih =>
    intro ranges
    simp only [acceptedSecondaries]
    by_cases h : ranges.any (rangeHits x)
    · rw [if_pos h]; exact ih _
    · rw [if_neg h]
      refine List.Pairwise.cons ?_ (ih _)
      intro b hb
      exact acceptedSecondaries_no_overlap rest _ b hb (x.start, x.stop) (by simp)

/-! ## The frame lemma for the apply loop -/

theorem chain_stop_le_start (m : RedactionMatch) (rest : List RedactionMatch)
    (hc : List.Chain' (fun a b => a.stop ≤ b.start) (m :: rest))
    (hb : ∀ x ∈ rest, x.start ≤ x.stop) :
    ∀ x ∈ rest, m.stop ≤ x.start := by
  induction rest generalizing m with
  | nil => simp
  | cons y rest ih =>
    intro x hx
    have h1 : m.stop ≤ y.start := (List.chain'_cons.mp hc).1
    rcases List.mem_cons.mp hx with h | h
    · exact h ▸ h1
    · have h2 : y.stop ≤ x.start :=
        ih y (List.chain'_cons.mp hc).2
          (fun z hz => hb z (List.mem_cons_of_mem _ hz)) x h
      have h3 : y.start ≤ y.stop := hb y (List.mem_cons_self _ _)
      exact le_trans h1 (le_trans h3 h2)

theorem applyRev_eq_renderPlan (ms : List RedactionMatch) :
    ∀ (t : List Char) (p : Nat),
      List.Chain' (fun a b => a.stop ≤ b.start) ms →
      (∀ m ∈ ms, m.start ≤ m.stop ∧ m.stop ≤ t.length) →
      (∀ m ∈ ms, p ≤ m.start) →
      ms.reverse.foldl applyOne t = t.take p ++ renderPlan t p ms := by
  induction ms with
  | nil =>
    intro t p _ _ _
    simp [renderPlan]
  | cons m rest ih =>
    intro t p hchain hbounds hp
    have h1 : m.start ≤ m.stop := (hbounds m (List.mem_cons_self _ _)).1
    have h2 : m.stop ≤ t.length := (hbounds m (List.mem_cons_self _ _)).2
    have hlow : ∀ x ∈ rest, m.stop ≤ x.start :=
      chain_stop_le_start m rest hchain
        (fun x hx => (hbounds x (List.mem_cons_of_mem _ hx)).1)
    have hrev : (m :: rest).reverse = rest.reverse ++ [m] := by simp
    rw [hrev, List.foldl_append]
    rw [ih t m.stop hchain.tail
      (fun x hx => hbounds x (List.mem_cons_of_mem _ hx)) hlow]
    simp only [List.foldl_cons, List.foldl_nil]
    unfold applyOne
    have hlen : (t.take m.stop).length = m.stop := by
      rw [List.length_take]
      exact min_eq_left h2
    have htake : (t.take m.stop ++ renderPlan t m.stop rest).take m.start = t.take m.start := by
      rw [List.take_append_eq_append_take, hlen, Nat.sub_eq_zero_of_le h1,
        List.take_zero, List.append_nil, List.take_take, min_eq_left h1]
    have hdrop : (t.take m.stop ++ renderPlan t m.stop rest).drop m.stop
        = renderPlan t m.stop rest := by
      rw [List.drop_append_eq_append_drop, hlen, Nat.sub_self, List.drop_zero,
        List.drop_eq_nil_of_le (le_of_eq hlen), List.nil_append]
    rw [htake, hdrop]
    have hps : p ≤ m.start := hp m (List.mem_cons_self _ _)
    have hsplit : t.take m.start = t.take p ++ (t.drop p).take (m.start - p) := by
      conv_lhs => rw [← Nat.add_sub_cancel' hps]
      exact List.take_add t p (m.start - p)
    rw [hsplit]
    simp [renderPlan]

/-! ## Lemmas about the gap-candidate sort and the confidence gate -/

theorem mem_insDescC (m : GapCandidate) (l : List GapCandidate) (y : GapCandidate) :
    y ∈ insDescC m l ↔ y = m ∨ y ∈ l := by
  induction l with
  | nil => simp [insDescC]
  | cons x xs ih =>
    simp only [insDescC]
    by_cases hc : m.s < x.s
    · rw [if_pos hc]
      simp only [List.mem_cons, ih]
      tauto
    · rw [if_neg hc]
      simp only [List.mem_cons]

theorem insDescC_pairwise (m : GapCandidate) (l : List GapCandidate)
    (h : List.Pairwise (fun a b => b.s ≤ a.s) l) :
    List.Pairwise (fun a b => b.s ≤ a.s) (insDescC m l) := by
  induction l with
  | nil => simp [insDescC]
  | cons x xs ih =>
    simp only [insDescC]
    rcases List.pairwise_cons.mp h with ⟨hx, hxs⟩
    by_cases hc : m.s < x.s
    · rw [if_pos hc]
      refine List.pairwise_cons.mpr ⟨?_, ih hxs⟩
      intro y hy
      rcases (mem_insDescC m xs y).mp hy with h1 | h1
      · exact h1 ▸ le_of_lt hc
      · exact hx y h1
    · rw [if_neg hc]
      refine List.pairwise_cons.mpr ⟨?_, h⟩
      intro y hy
      rcases List.mem_cons.mp hy with h1 | h1
      · exact h1 ▸ le_of_not_lt hc
      · exact le_trans (hx y h1) (le_of_not_lt hc)

theorem sortDescC_pairwise (l : List GapCandidate) :
    List.Pairwise (fun a b => b.s ≤ a.s) (sortDescC l) := by
  induction l with
  | nil => simp [sortDescC]
  | cons x xs ih => exact insDescC_pairwise x (sortDescC xs) ih

theorem insDescC_all_le (m : GapCandidate) (l : List GapCandidate)
    (h : ∀ y ∈ l, y.s ≤ m.s) : insDescC m l = m :: l := by
  cases l with
  | nil => rfl
  | cons x xs =>
    simp only [insDescC]
    rw [if_neg (not_lt_of_le (h x (List.mem_cons_self _ _)))]

theorem insDescC_filter (p : GapCandidate → Bool) (m : GapCandidate) :
    ∀ l : List GapCandidate, List.Pairwise (fun a b => b.s ≤ a.s) l →
      (insDescC m l).filter p
        = if p m then insDescC m (l.filter p) else l.filter p := by
  intro l
  induction l with
  | nil =>
    intro _
    by_cases hp : p m <;> simp [hp, insDescC]
  | cons x xs ih =>
    intro h
    rcases List.pairwise_cons.mp h with ⟨hx, hxs⟩
    simp only [insDescC]
    by_cases hc : m.s < x.s
    · rw [if_pos hc]
      simp only [List.filter_cons]
      by_cases hpx : p x
      · simp only [hpx, if_true, ih hxs]
        by_cases hpm : p m
        · simp only [hpm, if_true]
          simp only [insDescC, if_pos hc]
        · simp [hpm]
      · simp only [hpx, Bool.false_eq_true, if_false, ih hxs]
    · rw [if_neg hc]
      by_cases hpm : p m
      · have hside : ∀ y ∈ (x :: xs).filter p, y.s ≤ m.s := by
          intro y hy
          have hy' : y ∈ x :: xs := List.mem_of_mem_filter hy
          rcases List.mem_cons.mp hy' with h1 | h1
          · exact h1 ▸ le_of_not_lt hc
          · exact le_trans (hx y h1) (le_of_not_lt hc)
        rw [if_pos hpm, insDescC_all_le m _ hside]
        simp only [List.filter_cons, hpm, if_true]
      · rw [if_neg hpm]
        simp only [List.filter_cons, hpm, Bool.false_eq_true, if_false]

theorem filter_sortDescC (p : GapCandidate → Bool) (l : List GapCandidate) :
    (sortDescC l).filter p = sortDescC (l.filter p) := by
  induction l with
  | nil => rfl
  | cons x xs ih =>
    simp only [sortDescC, List.filter_cons]
    rw [insDescC_filter p x (sortDescC xs) (sortDescC_pairwise xs)]
    by_cases hp : p x
    · simp [hp, ih, sortDescC]
    · simp [hp, ih]

theorem foldl_applyCandidate_filter (l : List GapCandidate) :
    ∀ t : List Char,
      l.foldl applyCandidate t
        = (l.filter fun c => decide ((4 : ℚ)/5 ≤ c.conf)).foldl applyCandidate t := by
  induction l with
  | nil => intro t; rfl
  | cons c rest ih =>
    intro t
    simp only [List.foldl_cons, List.filter_cons]
    by_cases hc : (4 : ℚ)/5 ≤ c.conf
    · rw [if_pos (by simpa using hc)]
      simp only [List.foldl_cons]
      exact ih _
    · have hid : applyCandidate t c = t := by
        unfold applyCandidate
        rw [if_neg hc]
      rw [if_neg (by simpa using hc), hid]
      exact ih t

/-! ## Lemmas about the hybrid orchestrator in degraded mode -/

theorem combine_nil_right (rm : List RedactionMatch) :
    combineAndDeduplicateMatches rm [] = rm := rfl

theorem splitSupportedGo_isSome (pt : String → Option RE) (types : List String) :
    ∀ acc : List String × List String, (∀ ty ∈ acc.1, (pt ty).isSome) →
      ∀ ty ∈ (splitSupportedGo pt types acc).1, (pt ty).isSome := by
  induction types with
  | nil => intro acc h; exact h
  | cons x rest ih =>
    intro acc h
    simp only [splitSupportedGo]
    by_cases hx : (pt x).isSome
    · rw [if_pos hx]
      refine ih _ ?_
      intro ty hty
      rcases List.mem_append.mp hty with h1 | h1
      · exact h ty h1
      · rw [List.mem_singleton.mp h1]; exact hx
    · rw [if_neg hx]
      exact ih _ h

theorem splitSupported_isSome (pt : String → Option RE) (types : List String) :
    ∀ ty ∈ (splitSupported pt types).1, (pt ty).isSome :=
  splitSupportedGo_isSome pt types ([], []) (by simp)

theorem collectRegexGo_dget (pt : String → Option RE) (text : List Char)
    (custom : List (String × String)) (rt : List String) :
    ∀ (acc : List RedactionMatch × List (String × Nat)) (c : String), c ∉ rt →
      dget (collectRegexGo pt text custom rt acc).2 c 0 = dget acc.2 c 0 := by
  induction rt with
  | nil => intro acc c _; rfl
  | cons ty rest ih =>
    intro acc c hc
    simp only [collectRegexGo]
    rw [ih _ c (fun h => hc (List.mem_cons_of_mem _ h))]
    exact dget_dset_ne _ _ _ _ _ (fun h => hc (h ▸ List.mem_cons_self _ _))

theorem collect_dget_zero (pt : String → Option RE) (text : List Char)
    (custom : List (String × String)) (rt : List String) (c : String) (h : c ∉ rt) :
    dget (collectRegexMatches pt text rt custom).2 c 0 = 0 := by
  unfold collectRegexMatches
  rw [collectRegexGo_dget pt text custom rt ([], []) c h]
  rfl

/-! ## Claim theorems -/

/-- C3: the merge keeps all primary (regex) spans, and a secondary
(detector-derived) span is added if and only if its range does not overlap
any already-accepted range, using the overlap test
`not (b.end <= a.start or b.start >= a.end)` — `acceptedSecondaries` is that
acceptance rule written exactly as the spec words it; in particular an
overlapping deterministic/detector pair keeps the deterministic span and
drops the detector span. -/
theorem C3_merge_precedence :
    (∀ rm lm : List RedactionMatch,
      combineAndDeduplicateMatches rm lm
        = rm ++ acceptedSecondaries (rm.map fun m => (m.start, m.stop)) lm)
    ∧ ∀ a b : RedactionMatch, rangeHits b (a.start, a.stop) = true →
        combineAndDeduplicateMatches [a] [b] = [a] := by
  refine ⟨combine_eq, ?_⟩
  intro a b h
  rw [combine_eq]
  simp [acceptedSecondaries, h]

/-- C3 witness: a concrete overlapping pair — the deterministic span
`[0,5)` is retained and the detector span `[3,8)` is dropped. -/
theorem C3_merge_precedence_witness :
    combineAndDeduplicateMatches
      [{ start := 0, stop := 5, txt := "12345", piiType := "ssn",
         repl := "[REDACTED_SSN]" }]
      [{ start := 3, stop := 8, txt := "LLM", piiType := "email",
         repl := "[REDACTED_EMAIL]", conf := 9/10 }]
      = [{ start := 0, stop := 5, txt := "12345", piiType := "ssn",
           repl := "[REDACTED_SSN]" }] :=
  C3_merge_precedence.2
    { start := 0, stop := 5, txt := "12345", piiType := "ssn",
      repl := "[REDACTED_SSN]" }
    { start := 3, stop := 8, txt := "LLM", piiType := "email",
      repl := "[REDACTED_EMAIL]", conf := 9/10 }
    (by decide)

/-- C1 (amended): the merged list keeps every primary span verbatim (so two
overlapping deterministic spans are both retained — the span non-overlap
invariant does not hold between primaries, see the counterexample), every
merged span comes from one of the two inputs (so the `start`/`end` bounds
hold whenever they hold for the inputs), and every accepted secondary span
overlaps neither any primary span nor any other accepted secondary span. -/
theorem C1_merge_invariant_amended :
    ∀ rm lm : List RedactionMatch,
      ((combineAndDeduplicateMatches rm lm).take rm.length = rm)
      ∧ (∀ m ∈ combineAndDeduplicateMatches rm lm, m ∈ rm ∨ m ∈ lm)
      ∧ (∀ b ∈ (combineAndDeduplicateMatches rm lm).drop rm.length,
          ∀ a ∈ rm, rangeHits b (a.start, a.stop) = false)
      ∧ List.Pairwise (fun a b => rangeHits b (a.start, a.stop) = false)
          ((combineAndDeduplicateMatches rm lm).drop rm.length) := by
  intro rm lm
  rw [combine_eq]
  refine ⟨List.take_left _ _, ?_, ?_, ?_⟩
  · intro m hm
    rcases List.mem_append.mp hm with h | h
    · exact Or.inl h
    · exact Or.inr (acceptedSecondaries_subset lm _ m h)
  · rw [List.drop_left]
    intro b hb a ha
    exact acceptedSecondaries_no_overlap lm _ b hb (a.start, a.stop)
      (List.mem_map_of_mem _ ha)
  · rw [List.drop_left]
    exact acceptedSecondaries_pairwise lm _

/-- C1 witness: at a concrete merge of one primary and one accepted
secondary span, the accepted secondary does not overlap the primary. -/
theorem C1_merge_invariant_amended_witness :
    rangeHits
      { start := 7, stop := 9, txt := "LLM", piiType := "email",
        repl := "[REDACTED_EMAIL]", conf := 9/10 }
      (0, 5) = false := by
  refine (C1_merge_invariant_amended
      [{ start := 0, stop := 5, txt := "12345", piiType := "ssn",
         repl := "[REDACTED_SSN]" }]
      [{ start := 7, stop := 9, txt := "LLM", piiType := "email",
         repl := "[REDACTED_EMAIL]", conf := 9/10 }]).2.2.1
    { start := 7, stop := 9, txt := "LLM", piiType := "email",
      repl := "[REDACTED_EMAIL]", conf := 9/10 } ?_
    { start := 0, stop := 5, txt := "12345", piiType := "ssn",
      repl := "[REDACTED_SSN]" } ?_
  · show _ ∈ List.drop 1
      (combineAndDeduplicateMatches
        [{ start := 0, stop := 5, txt := "12345", piiType := "ssn",
           repl := "[REDACTED_SSN]" }]
        [{ start := 7, stop := 9, txt := "LLM", piiType := "email",
           repl := "[REDACTED_EMAIL]", conf := 9/10 }])
    have hc : combineAndDeduplicateMatches
        [{ start := 0, stop := 5, txt := "12345", piiType := "ssn",
           repl := "[REDACTED_SSN]" }]
        [{ start := 7, stop := 9, txt := "LLM", piiType := "email",
           repl := "[REDACTED_EMAIL]", conf := 9/10 }]
        = [{ start := 0, stop := 5, txt := "12345", piiType := "ssn",
             repl := "[REDACTED_SSN]" },
           { start := 7, stop := 9, txt := "LLM", piiType := "email",
             repl := "[REDACTED_EMAIL]", conf := 9/10 }] := rfl
    rw [hc]
    exact List.mem_singleton.mpr rfl
  · exact List.mem_singleton.mpr rfl

/-- C5: the enhancement application loop of `enhance_redaction` applies a
candidate replacement if and only if its confidence is at least 0.8
(applying the loop to a candidate list and to its ≥0.8 filtrate gives the
same text), and every `possible_id` candidate of the heuristic scan carries
confidence 0.6, hence is never auto-applied. -/
theorem C5_confidence_gate :
    (∀ (t : List Char) (cands : List GapCandidate),
      enhanceApplyCandidates t cands
        = enhanceApplyCandidates t (cands.filter fun c => decide ((4 : ℚ)/5 ≤ c.conf)))
    ∧ ∀ (text : List Char) (ar : List (Nat × Nat)),
        ∀ c ∈ possibleIdScan text ar, c.conf = 3/5 := by
  constructor
  · intro t cands
    unfold enhanceApplyCandidates
    rw [foldl_applyCandidate_filter, filter_sortDescC]
  · intro text ar c hc
    unfold possibleIdScan at hc
    rcases List.mem_map.mp hc with ⟨se, _, hse⟩
    rw [← hse]

/-- C5 witness: the heuristic scan on a concrete token yields a 0.6
confidence candidate. -/
theorem C5_confidence_gate_witness :
    GapCandidate.conf
      { ty := "possible_id", txt := "ABC123XY", s := 0, e := 8, conf := 3/5,
        why := "Alphanumeric token of suspicious length" } = 3/5 := by
  refine C5_confidence_gate.2 ("ABC123XY".toList) [] _ ?_
  have hs : possibleIdScan ("ABC123XY".toList) []
      = [{ ty := "possible_id", txt := "ABC123XY", s := 0, e := 8, conf := 3/5,
           why := "Alphanumeric token of suspicious length" }] := rfl
  rw [hs]
  exact List.mem_singleton.mpr rfl

/-- C6: the merged summary follows the max rule — for every requested
category the final count is the maximum of the deterministic (regex) count
and the detector-reported count (0 for a missing key), and every requested
category is present in the summary. -/
theorem C6_summary_max_rule :
    ∀ (rs ls : List (String × Nat)) (types : List String) (c : String),
      c ∈ types → (ls.map Prod.fst).Nodup →
      dmem (combineSummaries rs ls types) c = true
      ∧ dget (combineSummaries rs ls types) c 0 = max (dget rs c 0) (dget ls c 0) := by
  intro rs ls types c hmem hnd
  unfold combineSummaries
  constructor
  · exact combinePhase2_dmem types _ c (Or.inl hmem)
  · rw [combinePhase2_dget, combinePhase1_dget ls rs c hnd]

/-- C6 witness: a concrete summary merge where the detector count wins for
one category and a category unseen by both detectors is reported as 0. -/
theorem C6_summary_max_rule_witness :
    (dmem (combineSummaries [("email", 2)] [("email", 1), ("biometric", 3)]
        ["email", "biometric", "ssn"]) "biometric" = true
      ∧ dget (combineSummaries [("email", 2)] [("email", 1), ("biometric", 3)]
          ["email", "biometric", "ssn"]) "biometric" 0
        = max (dget [("email", 2)] "biometric" 0)
            (dget [("email", 1), ("biometric", 3)] "biometric" 0)) :=
  C6_summary_max_rule [("email", 2)] [("email", 1), ("biometric", 3)]
    ["email", "biometric", "ssn"] "biometric" (by decide) (by decide)

/-- C8: a request whose category list contains an id outside the accepted
category set fails validation, and a custom-tag override keyed by a category
not in the requested category list fails validation; in either case no
validated request value exists, so no redaction is attempted. -/
theorem C8_request_validation :
    ∀ (text : String) (types : List String) (custom : List (String × String)),
      ((∃ ty ∈ types, ty ∉ validTypesList) →
        exceptOk (mkRedactRequest text types custom) = false)
      ∧ (∀ k v, (k, v) ∈ custom → k ∉ types →
          exceptOk (mkRedactRequest text types custom) = false) := by
  intro text types custom
  constructor
  · rintro ⟨ty, hty, hbad⟩
    unfold mkRedactRequest
    by_cases h0 : text.length < 1
    · rw [if_pos h0]; rfl
    · rw [if_neg h0]
      have hall : types.all (fun ty => validTypesList.contains ty) = false := by
        rw [List.all_eq_false]
        exact ⟨ty, hty, by simpa using hbad⟩
      rw [hall]
      rfl
  · intro k v hkv hk
    unfold mkRedactRequest
    by_cases h0 : text.length < 1
    · rw [if_pos h0]; rfl
    · rw [if_neg h0]
      by_cases hall : types.all (fun ty => validTypesList.contains ty)
      · rw [if_pos hall]
        have hcust : custom.all (fun kv => types.contains kv.1) = false := by
          rw [List.all_eq_false]
          exact ⟨(k, v), hkv, by simpa using hk⟩
        rw [hcust]
        rfl
      · rw [if_neg hall]
        rfl

/-- C8 witness: the category `ssn` is outside the accepted set of the
request model, and a `phone` tag override on an email-only request is also
rejected. -/
theorem C8_request_validation_witness :
    exceptOk (mkRedactRequest "hello" ["ssn"] []) = false
    ∧ exceptOk (mkRedactRequest "hello" ["email"] [("phone", "[X]")]) = false :=
  ⟨(C8_request_validation "hello" ["ssn"] []).1 ⟨"ssn", by decide, by decide⟩,
   (C8_request_validation "hello" ["email"] [("phone", "[X]")]).2 "phone" "[X]"
     (by decide) (by decide)⟩

/-- C9 (amended): whenever the matches found for a text are sorted,
pairwise-disjoint and in bounds — which fails for overlapping matches of
different categories, see the counterexample — `redact_text` rewrites
exactly the matched ranges: the result is the text with each matched span
replaced by its tag and every character outside the matched ranges kept
unchanged and in order (`renderPlan`); with no match the result is the input
itself (`renderPlan` over `[]` is the identity). -/
theorem C9_frame_property_amended :
    ∀ (pt : String → Option RE) (text : List Char) (types : List String)
      (custom : List (String × String)),
      SortedDisjoint text.length (findPiiMatches pt text types custom) →
      (redactText pt text types custom).1
        = renderPlan text 0 (findPiiMatches pt text types custom) := by
  intro pt text types custom h
  have happ : (redactText pt text types custom).1
      = (findPiiMatches pt text types custom).reverse.foldl applyOne text := rfl
  rw [happ, applyRev_eq_renderPlan (findPiiMatches pt text types custom) text 0
    h.1 h.2 (fun m _ => Nat.zero_le _)]
  simp

/-- C9 witness: on `"SSN: 123-45-6789"` with the `ssn` category the single
match is in bounds and disjoint, and the redacted text is exactly the
rendering of the one-span plan. -/
theorem C9_frame_property_amended_witness :
    SortedDisjoint ("SSN: 123-45-6789".toList).length
      (findPiiMatches patternsE ("SSN: 123-45-6789".toList) ["ssn"] [])
    ∧ (redactText patternsE ("SSN: 123-45-6789".toList) ["ssn"] []).1
      = renderPlan ("SSN: 123-45-6789".toList) 0
          (findPiiMatches patternsE ("SSN: 123-45-6789".toList) ["ssn"] []) := by
  have hm : findPiiMatches patternsE ("SSN: 123-45-6789".toList) ["ssn"] []
      = [{ start := 0, stop := 16, txt := "SSN: 123-45-6789", piiType := "ssn",
           repl := "[REDACTED_SSN]" }] := rfl
  have hsd : SortedDisjoint ("SSN: 123-45-6789".toList).length
      (findPiiMatches patternsE ("SSN: 123-45-6789".toList) ["ssn"] []) := by
    rw [SortedDisjoint, hm]
    constructor
    · exact List.chain'_singleton _
    · intro m hmem
      rw [List.mem_singleton.mp hmem]
      exact ⟨by decide, by decide⟩
  exact ⟨hsd, C9_frame_property_amended patternsE ("SSN: 123-45-6789".toList) ["ssn"] [] hsd⟩

/-- C4 (amended): when the detector is unreachable the hybrid redaction
still succeeds — the outcome has `ok = true` and no error, the redacted text
is exactly the deterministic-only output (regex matches applied and cleaned,
the detector contributing nothing), and every requested category without a
deterministic pattern is reported with count 0.  The degradation is *not*
recorded in the response (see the counterexample): it is only logged. -/
theorem C4_degraded_mode_amended :
    ∀ (pt : String → Option RE) (text : List Char) (types : List String)
      (custom : List (String × String)) (o : DetectorOracle),
      o.connected = false →
      (improvedHybridRedact pt text types custom o).ok = true
      ∧ (improvedHybridRedact pt text types custom o).err = none
      ∧ (improvedHybridRedact pt text types custom o).resp.redacted
        = cleanOverlappingRedactions
            ((sortDescM (collectRegexMatches pt text (splitSupported pt types).1 custom).1).foldl
              applyOne text)
      ∧ ∀ c ∈ types, pt c = none →
          dmem (improvedHybridRedact pt text types custom o).resp.summary c = true
          ∧ dget (improvedHybridRedact pt text types custom o).resp.summary c 0 = 0 := by
  intro pt text types custom o hconn
  have hnotin : ∀ c : String, pt c = none → c ∉ (splitSupported pt types).1 := by
    intro c hc hmem
    have := splitSupported_isSome pt types c hmem
    rw [hc] at this
    simp at this
  refine ⟨?_, ?_, ?_, ?_⟩
  · simp [improvedHybridRedact]
  · simp [improvedHybridRedact]
  · simp only [improvedHybridRedact, hconn, Bool.false_eq_true, if_false]
    rw [combine_nil_right]
  · intro c hc hnone
    constructor
    · simp only [improvedHybridRedact, hconn, Bool.false_eq_true, if_false]
      unfold combineSummaries
      exact combinePhase2_dmem types _ c (Or.inl hc)
    · simp only [improvedHybridRedact, hconn, Bool.false_eq_true, if_false]
      unfold combineSummaries
      rw [combinePhase2_dget, combinePhase1_dget [] _ c (by simp)]
      rw [collect_dget_zero pt text custom _ c (hnotin c hnone)]
      rfl

/-- C4 witness: a concrete degraded run (detector down, one regex-less
category requested) succeeds and reports the pattern-less category with
count 0. -/
theorem C4_degraded_mode_amended_witness :
    (improvedHybridRedact patternsE ("zz".toList) ["email"] []
        { connected := false, redactOk := false, llmRedacted := [], analyzeSummary := [] }).ok
      = true
    ∧ dget (improvedHybridRedact patternsE ("zz".toList) ["email"] []
        { connected := false, redactOk := false, llmRedacted := [],
          analyzeSummary := [] }).resp.summary "email" 0 = 0 :=
  ⟨(C4_degraded_mode_amended patternsE ("zz".toList) ["email"] []
      { connected := false, redactOk := false, llmRedacted := [], analyzeSummary := [] }
      rfl).1,
   ((C4_degraded_mode_amended patternsE ("zz".toList) ["email"] []
      { connected := false, redactOk := false, llmRedacted := [], analyzeSummary := [] }
      rfl).2.2.2 "email" (by decide) rfl).2⟩

set_option maxHeartbeats 1000000 in
/-- C1 counterexample: both the `ssn` and the `drivers_license` patterns
match `"123-45-6789"` at span `[0,11)`; the merge step keeps both, so the
merged list contains two deterministic spans of different categories with
overlapping (here identical) ranges — the span non-overlap invariant fails
for a MatchSet the merge actually produces. -/
theorem C1_merged_overlap_cex :
    ((combineAndDeduplicateMatches
        (collectRegexMatches patternsE ("123-45-6789".toList)
          ["ssn", "drivers_license"] []).1
        []).map fun m => (m.piiType, m.start, m.stop))
      = [("ssn", 0, 11), ("drivers_license", 0, 11)]
    ∧ rangeHits
        { start := 0, stop := 11, txt := "123-45-6789", piiType := "drivers_license",
          repl := "[REDACTED_DRIVERS_LICENSE]" } (0, 11) = true :=
  ⟨by decide, by decide⟩

set_option maxHeartbeats 1600000 in
/-- C2 (code bug): the generic collapsed tag `[REDACTED]` — produced by the
pipeline own `clean_overlapping_redactions` — contains the substring
`REDACTED`, which matches the biometric pattern `\b[A-Z0-9]{8,20}\b`; a
second deterministic redaction with `biometric` among the categories
therefore rewrites the already-fully-redacted text to
`[[REDACTED_BIOMETRIC]]` instead of leaving it unchanged. -/
theorem C2_biometric_rematches_redacted_tag :
    cleanOverlappingRedactions ("[REDACTED_EMAIL] [REDACTED_SSN]".toList)
      = "[REDACTED]".toList
    ∧ (redactText patternsE ("[REDACTED]".toList) ["biometric"] []).1
      = "[[REDACTED_BIOMETRIC]]".toList
    ∧ (redactText patternsE ("[REDACTED]".toList) ["biometric"] []).2
      = [("biometric", 1)]
    ∧ "[[REDACTED_BIOMETRIC]]".toList ≠ "[REDACTED]".toList :=
  ⟨by decide, by decide, by decide, by decide⟩

set_option maxHeartbeats 1600000 in
/-- C4 counterexample: with the detector unreachable the hybrid outcome is
*identical* to the outcome of a run in which the detector is reachable but
reports nothing — success flag, response and error are the same triple, so
nothing in the response records the degraded mode to the caller (it is only
logged server-side). -/
theorem C4_no_degradation_recorded_cex :
    improvedHybridRedact patternsE ("SSN: 123-45-6789".toList) ["ssn"] []
      { connected := false, redactOk := false, llmRedacted := [], analyzeSummary := [] }
      = improvedHybridRedact patternsE ("SSN: 123-45-6789".toList) ["ssn"] []
        { connected := true, redactOk := true,
          llmRedacted := "SSN: 123-45-6789".toList, analyzeSummary := [] }
    ∧ (improvedHybridRedact patternsE ("SSN: 123-45-6789".toList) ["ssn"] []
        { connected := false, redactOk := false, llmRedacted := [],
          analyzeSummary := [] }).ok = true
    ∧ (improvedHybridRedact patternsE ("SSN: 123-45-6789".toList) ["ssn"] []
        { connected := false, redactOk := false, llmRedacted := [],
          analyzeSummary := [] }).err = none :=
  ⟨by decide, by decide, by decide⟩

/-- C7 counterexample: the candidate `"950"` does *not* match the
credit-score digit pattern — `[3-8]\d{2}` requires a leading digit 3–8, so
`finditer` finds nothing in `"950"` and the validator is never consulted;
`find_pii_matches` returns no match. -/
theorem C7_pattern_rejects_950_cex :
    finditer creditScoreRE ("950".toList) = []
    ∧ findPiiMatches patternsE ("950".toList) ["credit_score"] [] = [] :=
  ⟨by decide, by decide⟩

/-- C7 (amended): the credit-score validator accepts a string if and only if
Python `int()` parses it to an integer in `[300, 850]`; `"950"` is rejected
by the validator (950 ∉ [300,850]) — though it in fact never reaches the
validator, since it fails the pattern, see the counterexample — and a
non-numeric string is rejected. -/
theorem C7_credit_score_validator_amended :
    (∀ txt : List Char, validatePii txt "credit_score" = true ↔
        ∃ n : Int, pyInt txt = some n ∧ 300 ≤ n ∧ n ≤ 850)
    ∧ validatePii ("950".toList) "credit_score" = false
    ∧ validatePii ("abc".toList) "credit_score" = false
    ∧ validatePii ("720".toList) "credit_score" = true := by
  refine ⟨?_, by decide, by decide, by decide⟩
  intro txt
  have hv : validatePii txt "credit_score" = validateCreditScore txt := rfl
  rw [hv]
  unfold validateCreditScore
  cases h : pyInt txt with
  | none => simp
  | some n => simp

set_option maxHeartbeats 1600000 in
/-- C9 counterexample: on `"123-45-6789 extra"` with categories
`ssn, drivers_license` and a short custom tag for the license, the two found
matches overlap (both span `[0,11)`), and the end-to-start substitution then
destroys text *outside* the matched ranges: the character `'e'` at index 12
(outside `[0,11)`) does not survive into the output `"[REDACTED_SSN]"`. -/
theorem C9_frame_violation_cex :
    ((findPiiMatches patternsE ("123-45-6789 extra".toList) ["ssn", "drivers_license"]
        [("drivers_license", "X")]).map fun m => (m.start, m.stop))
      = [(0, 11), (0, 11)]
    ∧ (redactText patternsE ("123-45-6789 extra".toList) ["ssn", "drivers_license"]
        [("drivers_license", "X")]).1 = "[REDACTED_SSN]".toList
    ∧ ("123-45-6789 extra".toList).get? 12 = some 'e'
    ∧ ("[REDACTED_SSN]".toList).contains 'e' = false :=
  ⟨by decide, by decide, by decide, by decide⟩

set_option maxHeartbeats 1600000 in
/-- C10: the tag cleanup is not confined to runs of redaction tags — a text
containing no `[REDACTED` substring at all is altered when it contains `]`
followed by several whitespace characters, and whitespace before a single
(non-duplicated) tag is collapsed to one space. -/
theorem C10_cleanup_not_confined :
    cleanOverlappingRedactions ("note]   done".toList) = "note] done".toList
    ∧ containsSeq ("note]   done".toList) ("[REDACTED".toList) = false
    ∧ cleanOverlappingRedactions ("x  [REDACTED_EMAIL] y".toList)
      = "x [REDACTED_EMAIL] y".toList :=
  ⟨by decide, by decide, by decide⟩

/-- C7 witness: `"720"` parses to 720 ∈ [300, 850] and is accepted by the
validator, instantiating the iff at a concrete input. -/
theorem C7_credit_score_validator_amended_witness :
    validatePii ("720".toList) "credit_score" = true :=
  (C7_credit_score_validator_amended.1 ("720".toList)).mpr
    ⟨720, by decide, by decide, by decide⟩
